import Mathlib

/-
Verification of the NC (Noise Criteria) classifier in NC_criteria.py.

The classifier holds a fixed 10x8 threshold table (`level_mat`), names for the
ten curves (`levels`), the eight octave-band center frequencies
(`octave_bands`), and an optional measurement vector.  `calculate` compares the
measurement against the table with numpy-style broadcasting, picks the minimal
row index whose thresholds the measurement is strictly below, and separately
computes the "driving bands" from the highest row with an exceedance.
Measurements are modelled as lists of rationals (the Python floats are used
only in order comparisons and two-decimal formatting, both of which ℚ models
exactly for the finite values the program handles).
-/

/-- The eight octave-band center frequencies, `self.octave_bands`. -/
def octave_bands : List ℚ := [63, 125, 250, 500, 1000, 2000, 4000, 8000]

/-- The 10x8 NC threshold matrix, `self.level_mat`. -/
def level_mat : List (List ℚ) := [
  [47, 36, 29, 22, 17, 14, 12, 11],
  [51, 40, 33, 26, 22, 19, 17, 16],
  [54, 44, 37, 31, 27, 24, 22, 21],
  [57, 48, 41, 35, 31, 29, 28, 27],
  [60, 52, 45, 40, 36, 34, 33, 32],
  [64, 56, 50, 45, 41, 39, 38, 37],
  [67, 60, 54, 49, 46, 44, 43, 42],
  [71, 64, 58, 54, 51, 49, 48, 47],
  [74, 67, 62, 58, 56, 54, 53, 52],
  [77, 71, 67, 63, 61, 59, 58, 57]]

/-- The curve names, `self.levels = ["NC-"+str(i) for i in range(15,65,5)]`. -/
def levels : List String := (List.range' 15 10 5).map (fun i => "NC-" ++ toString i)

/-- Default string for list indexing (Python indexing never hits it here). -/
def dfltLevel : String := ""

/-- Row `i` of the threshold matrix. -/
def ncRow (i : ℕ) : List ℚ := level_mat.getD i []

/-- Threshold of curve row `i` at band `b`. -/
def threshold (i b : ℕ) : ℚ := (ncRow i).getD b 0

/-- numpy broadcasting of `data` against the 10x8 matrix: a length-8 vector is
used per band, a length-1 vector is stretched across all bands. -/
def dataAt (data : List ℚ) (b : ℕ) : ℚ :=
  if data.length = 1 then data.getD 0 0 else data.getD b 0

/-- Whether `data < self.level_mat` broadcasts at all: numpy accepts shapes
`(8,)` and `(1,)` against `(10,8)` and raises on every other length. -/
def canBroadcast (data : List ℚ) : Bool :=
  data.length == 8 || data.length == 1

/-- Cell of `self.lt_NC = (self.data < self.level_mat)`. -/
def lt_NC (data : List ℚ) (i b : ℕ) : Bool :=
  dataAt data b < threshold i b

/-- Cell of `self.gt_NC = (self.data >= self.level_mat)`. -/
def gt_NC (data : List ℚ) (i b : ℕ) : Bool :=
  threshold i b ≤ dataAt data b

/-- `np.all(self.lt_NC, axis=1)` at row `i`: the measurement is strictly below
every threshold of that row. -/
def rowAllLt (data : List ℚ) (i : ℕ) : Bool :=
  (List.range 8).all (fun b => lt_NC data i b)

/-- `self.all_lt_NC_rows = np.where(np.all(self.lt_NC, axis=1))[0]`: the row
indices (ascending) whose whole row compares true. -/
def all_lt_NC_rows (data : List ℚ) : List ℕ :=
  (List.range 10).filter (fun i => rowAllLt data i)

/-- `min_NC_row = self.all_lt_NC_rows.min()` as an option (numpy raises on an
empty array). -/
def assignedRow (data : List ℚ) : Option ℕ :=
  (all_lt_NC_rows data).min?

/-- The `(row, band)` pairs of one row of `np.where(self.gt_NC)`. -/
def rowPairs (data : List ℚ) (i : ℕ) : List (ℕ × ℕ) :=
  ((List.range 8).filter (fun b => gt_NC data i b)).map (fun b => (i, b))

/-- `self.gt_NC_idx = np.where(self.gt_NC)`: the true cells of `gt_NC` in
row-major order, as (row, band) pairs. -/
def gt_NC_idx (data : List ℚ) : List (ℕ × ℕ) :=
  (List.range 10).flatMap (fun i => rowPairs data i)

/-- `max_row = self.gt_NC_idx[0].max()` as an option (numpy raises on an
empty array). -/
def maxExceedRow (data : List ℚ) : Option ℕ :=
  ((gt_NC_idx data).map Prod.fst).max?

/-- The possible outcomes of `NC_table.calculate`.  Python signals errors by
raising; the constructors record how far the method got and which attributes
were assigned before the raise. -/
inductive CalcOutcome where
  /-- `raise ValueError("No input data.")`. -/
  | noData : CalcOutcome
  /-- numpy broadcast failure in `self.data < self.level_mat`. -/
  | shapeError : CalcOutcome
  /-- `self.all_lt_NC_rows.min()` raised on an empty array: no curve row is
  satisfied. -/
  | noSatisfyingCurve : CalcOutcome
  /-- `self.nc_level` was assigned, then `self.gt_NC_idx[0].max()` raised on an
  empty array (no cell exceeds any threshold). -/
  | assignedOnly : String → CalcOutcome
  /-- The method ran to completion: `self.nc_level` and `self.freqs`. -/
  | ok : String → List ℕ → CalcOutcome
deriving DecidableEq

/-- `NC_table.calculate`, as a function of `self.data`. -/
def calculate (data : Option (List ℚ)) : CalcOutcome :=
  match data with
  | none => CalcOutcome.noData
  | some d =>
    if canBroadcast d then
      match (all_lt_NC_rows d).min? with
      | none => CalcOutcome.noSatisfyingCurve
      | some minRow =>
        match ((gt_NC_idx d).map Prod.fst).max? with
        | none => CalcOutcome.assignedOnly (levels.getD minRow dfltLevel)
        | some maxRow =>
          CalcOutcome.ok (levels.getD minRow dfltLevel)
            (((gt_NC_idx d).filter (fun p => p.1 == maxRow)).map Prod.snd)
    else CalcOutcome.shapeError

/-- The `self.nc_level` attribute after `calculate`, when it was assigned
(line `self.nc_level = self.levels[min_NC_row]` runs before the driving-band
computation, so it is assigned even when the latter raises). -/
def assignedLevel : CalcOutcome → Option String
  | CalcOutcome.assignedOnly n => some n
  | CalcOutcome.ok n _ => some n
  | _ => none

/-- Errors of `NC_table.save`. -/
inductive SaveError where
  /-- `raise ValueError("No data")`. -/
  | noData : SaveError
  /-- `np.column_stack` rejects mismatched lengths. -/
  | shapeMismatch : SaveError
deriving DecidableEq

/-- The CSV file produced by `np.savetxt(..., header="freq Hz,Noise dB",
comments='', fmt="%.2f")`: a header line and rows of two numbers carrying two
decimal places each. -/
structure CsvFile where
  header : String
  rows : List (ℚ × ℚ)
deriving DecidableEq

/-- Round the fraction `n / d` (where `d > 0`) to the nearest integer with
ties to even (banker's rounding), the rule C/Python `%`-formatting applies to
the exact stored binary value.  With `f = ⌊n / d⌋` (floor division) and
remainder `r = n - f * d`, the fractional part is below / at / above one half
according as `2 * r` compares with `d`; at a tie the even neighbour of `f` is
taken. -/
def roundHalfEven (n d : ℤ) : ℤ :=
  let f : ℤ := n.fdiv d
  let r : ℤ := n - f * d
  if 2 * r = d then
    (if f % 2 = 0 then f else f + 1)
  else if 2 * r < d then f else f + 1

/-- Rounding a value to two decimal places, the effect of storing it with
`fmt="%.2f"` and parsing it back.  Every value the program holds is a Python
float, i.e. a dyadic rational represented exactly, and `%.2f` prints the
2-decimal value nearest to that exact value, resolving ties to even — e.g.
47.125 is written as 47.12, not 47.13.  `100 * x` is the fraction
`(100 * x.num) / x.den`, rounded here without normalising. -/
def round2 (x : ℚ) : ℚ := mkRat (roundHalfEven (100 * x.num) (x.den : ℤ)) 100

/-- Fidelity check of the two-decimal formatting model: the representable tie
47.125 = 377/8 rounds down to the even 47.12 (as `'%.2f' % 47.125` does), the
tie 47.135 rounds up to the even 47.14, non-ties round to nearest, and values
already at two decimals are fixed. -/
lemma round2_ties_to_even :
    round2 (mkRat 377 8) = mkRat 4712 100 ∧
      round2 (mkRat 47135 1000) = mkRat 4714 100 ∧
      round2 (mkRat 47123 1000) = mkRat 4712 100 ∧
      round2 (mkRat 47127 1000) = mkRat 4713 100 ∧
      round2 (mkRat 35 2) = mkRat 35 2 ∧ round2 36 = 36 := by decide

/-- `NC_table.save`: refuse when no data is loaded, else stack the band
frequencies with the measurement and write both at two decimal places. -/
def save (data : Option (List ℚ)) : Except SaveError CsvFile :=
  match data with
  | none => Except.error SaveError.noData
  | some d =>
    if d.length = octave_bands.length then
      Except.ok ⟨"freq Hz,Noise dB",
        (octave_bands.zip d).map (fun p => (round2 p.1, round2 p.2))⟩
    else Except.error SaveError.shapeMismatch

/-- `NC_table.load`: `np.loadtxt(..., skiprows=1)` then keep the second column
(`loaddata.T[1]`). -/
def load (f : CsvFile) : List ℚ := f.rows.map Prod.snd

/-! ### Helper lemmas -/

lemma canBroadcast_of_len8 {d : List ℚ} (h8 : d.length = 8) :
    canBroadcast d = true := by
  simp [canBroadcast, h8]

lemma mem_all_lt_NC_rows {d : List ℚ} {i : ℕ} :
    i ∈ all_lt_NC_rows d ↔ i < 10 ∧ rowAllLt d i = true := by
  simp [all_lt_NC_rows, List.mem_filter, List.mem_range]

lemma rowAllLt_iff {d : List ℚ} {i : ℕ} :
    rowAllLt d i = true ↔ ∀ b, b < 8 → dataAt d b < threshold i b := by
  simp [rowAllLt, List.all_eq_true, List.mem_range, lt_NC]

lemma gt_NC_iff {d : List ℚ} {i b : ℕ} :
    gt_NC d i b = true ↔ threshold i b ≤ dataAt d b := by
  simp [gt_NC]

lemma assignedRow_eq_some_iff {d : List ℚ} {i : ℕ} :
    assignedRow d = some i ↔
      (i < 10 ∧ rowAllLt d i = true) ∧
        ∀ j, j < 10 → rowAllLt d j = true → i ≤ j := by
  rw [assignedRow, List.min?_eq_some_iff']
  constructor
  · rintro ⟨hm, hall⟩
    exact ⟨mem_all_lt_NC_rows.mp hm,
      fun j hj hsat => hall j (mem_all_lt_NC_rows.mpr ⟨hj, hsat⟩)⟩
  · rintro ⟨hm, hall⟩
    exact ⟨mem_all_lt_NC_rows.mpr hm, fun j hj =>
      hall j (mem_all_lt_NC_rows.mp hj).1 (mem_all_lt_NC_rows.mp hj).2⟩

lemma calculate_some_eq (d : List ℚ) (h8 : d.length = 8) :
    calculate (some d) =
      match (all_lt_NC_rows d).min? with
      | none => CalcOutcome.noSatisfyingCurve
      | some minRow =>
        match ((gt_NC_idx d).map Prod.fst).max? with
        | none => CalcOutcome.assignedOnly (levels.getD minRow dfltLevel)
        | some maxRow =>
          CalcOutcome.ok (levels.getD minRow dfltLevel)
            (((gt_NC_idx d).filter (fun p => p.1 == maxRow)).map Prod.snd) := by
  simp [calculate, canBroadcast_of_len8 h8]

/-! ### Claim theorems -/

/-- C1: for every 8-element measurement with at least one satisfied NC row,
`calculate` assigns the curve of the minimal satisfied row index — the first
row `i` in ascending order with `measurement[b] < threshold(i, b)` for every
band `b` — and that row's name (`levels[i]`) is the assigned NC level. -/
theorem C1_assigns_first_satisfied_row (d : List ℚ) (h8 : d.length = 8)
    (i : ℕ) (hi : i < 10) (hsat : rowAllLt d i = true)
    (hfirst : ∀ j, j < i → rowAllLt d j = false) :
    assignedLevel (calculate (some d)) = some (levels.getD i dfltLevel) := by
  have hmin : (all_lt_NC_rows d).min? = some i := by
    rw [List.min?_eq_some_iff']
    refine ⟨mem_all_lt_NC_rows.mpr ⟨hi, hsat⟩, fun j hj => ?_⟩
    by_contra hlt
    have hji : j < i := Nat.lt_of_not_le (fun h => hlt h)
    have := hfirst j hji
    rw [(mem_all_lt_NC_rows.mp hj).2] at this
    exact absurd this (by simp)
  rw [calculate_some_eq d h8, hmin]
  cases hmax : ((gt_NC_idx d).map Prod.fst).max? with
  | none => simp [assignedLevel]
  | some r => simp [assignedLevel]

/-- C1 witness: the measurement 46,35,... is strictly below the NC-15 row,
so row 0 is the first satisfied row and the assigned level is NC-15. -/
theorem C1_assigns_first_satisfied_row_witness :
    assignedLevel (calculate (some [46, 35, 28, 21, 16, 13, 11, 10])) =
      some (levels.getD 0 dfltLevel) :=
  C1_assigns_first_satisfied_row [46, 35, 28, 21, 16, 13, 11, 10] (by decide)
    0 (by decide) (by decide) (fun j hj => absurd hj (Nat.not_lt_zero j))

/-- C2: for every 8-element measurement satisfying no NC row (every row has
some band at or above its threshold), `calculate` raises on the empty
candidate set — the `noSatisfyingCurve` outcome — and returns no curve. -/
theorem C2_no_satisfied_row_is_fatal (d : List ℚ) (h8 : d.length = 8)
    (hnone : ∀ j, j < 10 → rowAllLt d j = false) :
    calculate (some d) = CalcOutcome.noSatisfyingCurve := by
  have hnil : all_lt_NC_rows d = [] := by
    rw [all_lt_NC_rows, List.filter_eq_nil_iff]
    intro a ha
    rw [List.mem_range] at ha
    simp [hnone a ha]
  rw [calculate_some_eq d h8, hnil]
  rfl

/-- C2 witness: the NC-60 row itself satisfies no curve (equality is not
strictly below), so classification fails fatally. -/
theorem C2_no_satisfied_row_is_fatal_witness :
    calculate (some [77, 71, 67, 63, 61, 59, 58, 57]) =
      CalcOutcome.noSatisfyingCurve :=
  C2_no_satisfied_row_is_fatal [77, 71, 67, 63, 61, 59, 58, 57]
    (by decide) (by decide)

/-- C3: on a measurement strictly below the NC-15 row everywhere, the code
does NOT return NC-15 with an empty driving-band set: `np.where(gt_NC)` is
empty, so `gt_NC_idx[0].max()` raises after `nc_level` was assigned — the
`assignedOnly` outcome, a crash instead of the claimed success. -/
theorem C3_quiet_measurement_crashes :
    calculate (some [10, 10, 10, 10, 10, 10, 10, 10]) =
      CalcOutcome.assignedOnly ("NC-15") := by decide

/-- C5 counterexample: the length-1 measurement `[20]` does not have length 8,
yet numpy broadcasting stretches it across all bands and `calculate` returns a
classification result instead of a shape error. -/
theorem C5_length_one_broadcasts :
    ([20] : List ℚ).length ≠ 8 ∧
      calculate (some [20]) = CalcOutcome.ok ("NC-25") [5, 6, 7] := by decide

/-- C5 amended: for every measurement whose length is neither 8 nor 1,
`calculate` fails with the broadcast shape error before producing any
classification result. -/
theorem C5_shape_error_unless_broadcastable (d : List ℚ)
    (h8 : d.length ≠ 8) (h1 : d.length ≠ 1) :
    calculate (some d) = CalcOutcome.shapeError := by
  simp [calculate, canBroadcast, h8, h1]

/-- C5 amended witness: a length-2 measurement fails with the shape error. -/
theorem C5_shape_error_unless_broadcastable_witness :
    calculate (some [1, 2]) = CalcOutcome.shapeError :=
  C5_shape_error_unless_broadcastable [1, 2] (by decide) (by decide)

/-- C6: per cell, the strict-less "satisfied" comparison and the at-least
"exceeds" comparison are complementary (exactly one holds); and a measurement
equal to a curve row in every band is not satisfied by that row while every
band counts as exceeding it. -/
theorem C6_lt_ge_complementary (d : List ℚ) (i b : ℕ) :
    (lt_NC d i b = !(gt_NC d i b)) ∧
      ∀ (r : Fin 10) (c : Fin 8),
        rowAllLt (ncRow r) r = false ∧ gt_NC (ncRow r) r c = true := by
  constructor
  · simp only [lt_NC, gt_NC, ← not_le, decide_not]
  · decide

/-- C7: component-wise smaller measurements never classify worse: if both
measurements get an assigned row, the quieter one's row index is ≤. -/
theorem C7_monotone_in_measurement (d1 d2 : List ℚ)
    (_h8a : d1.length = 8) (_h8b : d2.length = 8)
    (hle : ∀ b, b < 8 → dataAt d1 b ≤ dataAt d2 b)
    (i j : ℕ) (hi : assignedRow d1 = some i) (hj : assignedRow d2 = some j) :
    i ≤ j := by
  obtain ⟨⟨hj10, hjsat⟩, -⟩ := assignedRow_eq_some_iff.mp hj
  obtain ⟨-, hmin1⟩ := assignedRow_eq_some_iff.mp hi
  refine hmin1 j hj10 (rowAllLt_iff.mpr fun b hb => ?_)
  exact lt_of_le_of_lt (hle b hb) (rowAllLt_iff.mp hjsat b hb)

/-- C7 witness: the zero measurement is below the NC-15 row (assigned row 0);
the NC-15 row itself is assigned row 1 (NC-20); 0 ≤ 1. -/
theorem C7_monotone_in_measurement_witness :
    assignedRow [0, 0, 0, 0, 0, 0, 0, 0] = some 0 ∧
      assignedRow [47, 36, 29, 22, 17, 14, 12, 11] = some 1 ∧ (0 : ℕ) ≤ 1 :=
  ⟨by decide, by decide,
    C7_monotone_in_measurement [0, 0, 0, 0, 0, 0, 0, 0]
      [47, 36, 29, 22, 17, 14, 12, 11] (by decide) (by decide) (by decide)
      0 1 (by decide) (by decide)⟩

/-- The threshold matrix is column-wise non-decreasing in the row index. -/
lemma threshold_mono_fin : ∀ (a c : Fin 10) (b : Fin 8),
    a ≤ c → threshold a b ≤ threshold c b := by decide

lemma threshold_mono {a c b : ℕ} (hac : a ≤ c) (hc : c < 10) (hb : b < 8) :
    threshold a b ≤ threshold c b :=
  threshold_mono_fin ⟨a, lt_of_le_of_lt hac hc⟩ ⟨c, hc⟩ ⟨b, hb⟩ hac

/-- Rows at or above a satisfied row have no exceeding cell. -/
lemma no_exceed_of_satisfied {d : List ℚ} {i j b : ℕ} (hij : i ≤ j)
    (hj : j < 10) (hb : b < 8) (hsat : rowAllLt d i = true) :
    gt_NC d j b = false := by
  have hlt : dataAt d b < threshold j b :=
    lt_of_lt_of_le (rowAllLt_iff.mp hsat b hb) (threshold_mono hij hj hb)
  simp [gt_NC, not_le.mpr hlt]

/-- C8: saving a loaded 8-element measurement to the CSV format (header plus
8 two-decimal rows) and loading the file back yields the measurement with each
value rounded to 2 decimal places. -/
theorem C8_save_load_round_trip (d : List ℚ) (h8 : d.length = 8) :
    ∃ f, save (some d) = Except.ok f ∧ load f = d.map round2 := by
  refine ⟨⟨"freq Hz,Noise dB",
    (octave_bands.zip d).map (fun p => (round2 p.1, round2 p.2))⟩, ?_, ?_⟩
  · rw [save]
    have hlen : d.length = octave_bands.length := by rw [h8]; rfl
    simp [hlen]
  · rw [load]
    have hmap : ∀ l : List (ℚ × ℚ),
        (l.map (fun p => (round2 p.1, round2 p.2))).map Prod.snd =
          (l.map Prod.snd).map round2 := by
      intro l
      simp [List.map_map]
    rw [hmap, List.map_snd_zip octave_bands d (by rw [h8]; rfl)]

/-- C8 witness: round trip at a concrete measurement containing the
representable tie 47.125 = 377/8 (stored as 47.12 by ties-to-even) and the
exactly-stored 17.5. -/
theorem C8_save_load_round_trip_witness :
    ∃ f, save (some [mkRat 377 8, 36, 29, 22, mkRat 35 2, 14, 12, 11]) =
        Except.ok f ∧
      load f = ([mkRat 377 8, 36, 29, 22, mkRat 35 2, 14, 12, 11] : List ℚ).map
        round2 :=
  C8_save_load_round_trip [mkRat 377 8, 36, 29, 22, mkRat 35 2, 14, 12, 11]
    (by decide)

lemma mem_rowPairs {d : List ℚ} {i : ℕ} {p : ℕ × ℕ} :
    p ∈ rowPairs d i ↔ p.1 = i ∧ p.2 < 8 ∧ gt_NC d i p.2 = true := by
  cases p with
  | mk a b =>
    simp only [rowPairs, List.mem_map, List.mem_filter, List.mem_range]
    constructor
    · rintro ⟨c, ⟨hc8, hgt⟩, hcb⟩
      cases hcb
      exact ⟨rfl, hc8, hgt⟩
    · rintro ⟨rfl, hb8, hgt⟩
      exact ⟨b, ⟨hb8, hgt⟩, rfl⟩

lemma mem_gt_NC_idx {d : List ℚ} {p : ℕ × ℕ} :
    p ∈ gt_NC_idx d ↔ p.1 < 10 ∧ p.2 < 8 ∧ gt_NC d p.1 p.2 = true := by
  simp only [gt_NC_idx, List.mem_flatMap, List.mem_range]
  constructor
  · rintro ⟨i, hi10, hp⟩
    obtain ⟨h1, h2, h3⟩ := mem_rowPairs.mp hp
    subst h1
    exact ⟨hi10, h2, h3⟩
  · rintro ⟨h1, h2, h3⟩
    exact ⟨p.1, h1, mem_rowPairs.mpr ⟨rfl, h2, h3⟩⟩

lemma maxExceedRow_eq_some_iff {d : List ℚ} {r : ℕ} :
    maxExceedRow d = some r ↔
      (r < 10 ∧ ∃ b, b < 8 ∧ gt_NC d r b = true) ∧
        ∀ a b, a < 10 → b < 8 → gt_NC d a b = true → a ≤ r := by
  rw [maxExceedRow, List.max?_eq_some_iff']
  constructor
  · rintro ⟨hm, hall⟩
    obtain ⟨p, hp, hpr⟩ := List.mem_map.mp hm
    obtain ⟨h1, h2, h3⟩ := mem_gt_NC_idx.mp hp
    subst hpr
    refine ⟨⟨h1, p.2, h2, h3⟩, fun a b ha hb hgt => ?_⟩
    exact hall a (List.mem_map.mpr ⟨(a, b), mem_gt_NC_idx.mpr ⟨ha, hb, hgt⟩, rfl⟩)
  · rintro ⟨⟨hr10, b, hb8, hgt⟩, hall⟩
    refine ⟨List.mem_map.mpr ⟨(r, b), mem_gt_NC_idx.mpr ⟨hr10, hb8, hgt⟩, rfl⟩,
      fun a ha => ?_⟩
    obtain ⟨p, hp, hpr⟩ := List.mem_map.mp ha
    obtain ⟨h1, h2, h3⟩ := mem_gt_NC_idx.mp hp
    subst hpr
    exact hall p.1 p.2 h1 h2 h3

lemma filter_fst_map_pair (a r : ℕ) (l : List ℕ) :
    ((l.map (fun b => (a, b))).filter (fun p => p.1 == r)) =
      if a = r then l.map (fun b => (a, b)) else [] := by
  induction l with
  | nil => simp
  | cons x t ih =>
    by_cases h : a = r
    · subst h
      simp only [List.map_cons, List.filter_cons] at ih ⊢
      simp [ih]
    · simp only [List.map_cons, List.filter_cons] at ih ⊢
      simp [ih, h]

lemma filter_fst_rowPairs (d : List ℚ) (a r : ℕ) :
    (rowPairs d a).filter (fun p => p.1 == r) =
      if a = r then rowPairs d a else [] := by
  rw [rowPairs, filter_fst_map_pair]

lemma filter_fst_flatMap (d : List ℚ) (r : ℕ) (L : List ℕ)
    (hnd : L.Nodup) (hr : r ∈ L) :
    ((L.flatMap (fun i => rowPairs d i)).filter (fun p => p.1 == r)) =
      rowPairs d r := by
  induction L with
  | nil => cases hr
  | cons a t ih =>
    rw [List.flatMap_cons, List.filter_append, filter_fst_rowPairs]
    by_cases har : a = r
    · subst har
      have hnt : a ∉ t := (List.nodup_cons.mp hnd).1
      have htnil :
          ((t.flatMap (fun i => rowPairs d i)).filter (fun p => p.1 == a)) = [] := by
        rw [List.filter_eq_nil_iff]
        intro p hp
        obtain ⟨i, hit, hpi⟩ := List.mem_flatMap.mp hp
        have := (mem_rowPairs.mp hpi).1
        simp only [beq_iff_eq, this]
        intro hir
        exact hnt (hir ▸ hit)
      simp [htnil]
    · rw [if_neg har, List.nil_append]
      have hrt : r ∈ t := by
        rcases List.mem_cons.mp hr with h | h
        · exact absurd h.symm har
        · exact h
      exact ih (List.nodup_cons.mp hnd).2 hrt

lemma filter_fst_gt_NC_idx (d : List ℚ) {r : ℕ} (hr : r < 10) :
    (gt_NC_idx d).filter (fun p => p.1 == r) = rowPairs d r :=
  filter_fst_flatMap d r (List.range 10) (List.nodup_range 10)
    (List.mem_range.mpr hr)

lemma map_snd_rowPairs (d : List ℚ) (r : ℕ) :
    (rowPairs d r).map Prod.snd = (List.range 8).filter (fun b => gt_NC d r b) := by
  simp [rowPairs, List.map_map, Function.comp]

/-- C4: whenever `calculate` completes with a result, the reported driving
bands are exactly the bands exceeding at the highest row index having any
exceedance, and the assigned curve name is determined by the satisfied-rows
computation alone (it does not depend on the exceedance diagnostic). -/
theorem C4_driving_bands_from_highest_exceeding_row (d : List ℚ)
    (h8 : d.length = 8) (nc : String) (fs : List ℕ)
    (hok : calculate (some d) = CalcOutcome.ok nc fs) :
    ∃ r, r < 10 ∧ (∃ b, b < 8 ∧ gt_NC d r b = true) ∧
      (∀ a b, a < 10 → b < 8 → gt_NC d a b = true → a ≤ r) ∧
      fs = (List.range 8).filter (fun b => gt_NC d r b) ∧
      ∃ k, assignedRow d = some k ∧ nc = levels.getD k dfltLevel := by
  rw [calculate_some_eq d h8] at hok
  cases hmin : (all_lt_NC_rows d).min? with
  | none => rw [hmin] at hok; exact absurd hok (by simp)
  | some k =>
    rw [hmin] at hok
    cases hmax : ((gt_NC_idx d).map Prod.fst).max? with
    | none => rw [hmax] at hok; exact absurd hok (by simp)
    | some r =>
      rw [hmax] at hok
      simp only [CalcOutcome.ok.injEq] at hok
      obtain ⟨hnc, hfs⟩ := hok
      obtain ⟨⟨hr10, hex⟩, hbound⟩ := maxExceedRow_eq_some_iff.mp hmax
      refine ⟨r, hr10, hex, hbound, ?_, k, hmin, hnc.symm⟩
      rw [← hfs, filter_fst_gt_NC_idx d hr10, map_snd_rowPairs]

/-- C4 witness: the NC-15 row itself is classified NC-20 and every band
exceeds at row 0, the highest exceeding row. -/
theorem C4_driving_bands_from_highest_exceeding_row_witness :
    ∃ r, r < 10 ∧
      (∃ b, b < 8 ∧ gt_NC [47, 36, 29, 22, 17, 14, 12, 11] r b = true) ∧
      (∀ a b, a < 10 → b < 8 →
        gt_NC [47, 36, 29, 22, 17, 14, 12, 11] a b = true → a ≤ r) ∧
      [0, 1, 2, 3, 4, 5, 6, 7] =
        (List.range 8).filter (fun b => gt_NC [47, 36, 29, 22, 17, 14, 12, 11] r b) ∧
      ∃ k, assignedRow [47, 36, 29, 22, 17, 14, 12, 11] = some k ∧
        "NC-20" = levels.getD k dfltLevel :=
  C4_driving_bands_from_highest_exceeding_row [47, 36, 29, 22, 17, 14, 12, 11]
    (by decide) ("NC-20") [0, 1, 2, 3, 4, 5, 6, 7] (by decide)

/-- C10: when a row is assigned and some cell exceeds, the highest exceeding
row lies strictly below the assigned row, and the assigned row itself has no
exceeding band. -/
theorem C10_driving_row_strictly_below_assigned (d : List ℚ)
    (_h8 : d.length = 8) (i r : ℕ)
    (hi : assignedRow d = some i) (hr : maxExceedRow d = some r) :
    r < i ∧ ∀ b, b < 8 → gt_NC d i b = false := by
  obtain ⟨⟨hi10, hisat⟩, -⟩ := assignedRow_eq_some_iff.mp hi
  obtain ⟨⟨hr10, b, hb8, hgt⟩, -⟩ := maxExceedRow_eq_some_iff.mp hr
  constructor
  · by_contra hge
    have hir : i ≤ r := Nat.le_of_not_lt hge
    have := no_exceed_of_satisfied hir hr10 hb8 hisat
    rw [hgt] at this
    exact absurd this (by simp)
  · exact fun c hc => no_exceed_of_satisfied (Nat.le_refl i) hi10 hc hisat

/-- C10 witness: for the NC-15 row as measurement, the assigned row is 1 and
the highest exceeding row is 0, which is strictly below; row 1 has no
exceeding band. -/
theorem C10_driving_row_strictly_below_assigned_witness :
    0 < 1 ∧ ∀ b, b < 8 → gt_NC [47, 36, 29, 22, 17, 14, 12, 11] 1 b = false :=
  C10_driving_row_strictly_below_assigned [47, 36, 29, 22, 17, 14, 12, 11]
    (by decide) 1 0 (by decide) (by decide)

/-- C9: with no measurement loaded, `calculate` and `save` both fail with the
no-data error; neither produces a result or a file. -/
theorem C9_missing_data_errors :
    calculate none = CalcOutcome.noData ∧
      save none = Except.error SaveError.noData :=
  ⟨rfl, rfl⟩
